import Mathlib

/-!
Verification of the Pincer-MCP credential-isolation gateway core.

Shallow embedding of the TypeScript sources:
* `src/security/gatekeeper.ts` — proxy-token extraction and validation,
* `src/audit/logger.ts` — hash-chained audit logger,
* `src/vault/store.ts` — vault store (secrets, agents, mappings, master key),
* `src/vault/injector.ts` / `src/pincer.ts` — credential injection and the
  per-call pipeline,
* `src/callers/base.ts` — retry-with-backoff base caller.

Pure data is embedded directly; SQLite tables become lists of row records
(each `stmt.run` autocommits — the source opens no transaction); foreign
library calls (Node `crypto`, `keytar`, `nanoid`) are parameters of the
embedding, constrained only by their documented contracts where a claim
needs them.
-/

namespace PincerMCP

/-- A JSON-ish value as it may appear in a `Record<string, unknown>`
(the `arguments` / `_meta` maps of a tool-call request). -/
inductive JVal where
  | str : String → JVal
  | num : Int → JVal
  | bool : Bool → JVal
  | null : JVal
deriving DecidableEq

/-- JavaScript truthiness of a value, as tested by `if (!proxyToken)`. -/
def JVal.truthy : JVal → Bool
  | .str s => s ≠ ""
  | .num n => n ≠ 0
  | .bool b => b
  | .null => false

/-- JavaScript `String(v)` coercion, as applied by `RegExp.prototype.test`
to a non-string argument. -/
def JVal.toJsString : JVal → String
  | .str s => s
  | .num n => toString n
  | .bool true => "true"
  | .bool false => "false"
  | .null => "null"

/-- A JavaScript object with `unknown`-typed values, as an association list
(keys are unique in any object built by the runtime). -/
def JObj := List (String × JVal)

instance : DecidableEq JObj := inferInstanceAs (DecidableEq (List (String × JVal)))

/-- `key in obj` / `obj[key]`: first binding for the key. -/
def JObj.lookup (o : JObj) (key : String) : Option JVal :=
  (List.find? (fun p => p.1 = key) o).map Prod.snd

/-- `delete obj[key]`: remove the binding for the key. -/
def JObj.erase (o : JObj) (key : String) : JObj :=
  List.filter (fun p => ¬ p.1 = key) o

/-- The `params` of a tool-call request (`ToolCallRequest` interface):
tool name, optional arguments map, optional `_meta` map. -/
structure ToolCallRequest where
  name : String
  arguments : Option JObj
  meta : Option JObj

/-- Result of `Gatekeeper.extractProxyToken`: the token value (if any) and the
arguments map as downstream components will see it after the in-place
`delete args["__pincer_auth__"]` mutation. -/
structure ExtractResult where
  token : Option JVal
  argumentsAfter : Option JObj
deriving DecidableEq

/-- `Gatekeeper.extractProxyToken` (src/security/gatekeeper.ts lines 45–72).
Priority: `_meta.pincer_token` (only when the value is a string), then
`arguments.__pincer_auth__` (taken whenever the key is present, with no
`typeof` check — the source casts with `as string`; the key is deleted from
the arguments object in place), then the `PINCER_PROXY_TOKEN` environment
variable (when set and truthy). `env` is the value of that variable. -/
def extractProxyToken (request : ToolCallRequest) (env : Option String) :
    ExtractResult :=
  -- Preferred: _meta.pincer_token; falls through when present but non-string
  match request.meta with
  | some m =>
    match m.lookup "pincer_token" with
    | some (.str t) => ⟨some (.str t), request.arguments⟩
    | _ => extractFallback request env
  | none => extractFallback request env
where
  /-- The two fallback sources (arguments, then environment). -/
  extractFallback (request : ToolCallRequest) (env : Option String) :
      ExtractResult :=
    -- Fallback 1: __pincer_auth__ in tool arguments
    match request.arguments with
    | some args =>
      match args.lookup "__pincer_auth__" with
      | some v => ⟨some v, some (args.erase "__pincer_auth__")⟩
      | none => extractEnv request env
    | none => extractEnv request env
  /-- Fallback 2: the environment variable (skipped when unset or empty,
  since `envToken &&` is a truthiness test). -/
  extractEnv (request : ToolCallRequest) (env : Option String) :
      ExtractResult :=
    match env with
    | some s => if s ≠ "" then ⟨some (.str s), request.arguments⟩
                else ⟨none, request.arguments⟩
    | none => ⟨none, request.arguments⟩

/-- A character of the URL-safe alphabet `[A-Za-z0-9_-]`. -/
def isUrlSafeChar (c : Char) : Bool :=
  (('A' ≤ c && c ≤ 'Z') || ('a' ≤ c && c ≤ 'z') || ('0' ≤ c && c ≤ '9')
    || c = '_' || c = '-')

/-- `Gatekeeper.isValidProxyToken`: the anchored regular expression
`/^pxr_[A-Za-z0-9_-]{21,}$/` as a decision procedure on the character
sequence of the token: the literal prefix `pxr_`, then at least 21
characters of the URL-safe class, reaching the end of the string. -/
def isValidProxyToken (token : String) : Bool :=
  token.data.take 4 = ['p', 'x', 'r', '_'] &&
    (token.data.drop 4).length ≥ 21 &&
    (token.data.drop 4).all isUrlSafeChar

/-- Errors thrown by `Gatekeeper.authenticate` (the source throws `Error`s
with distinct messages; we record the kind). -/
inductive AuthError where
  | missingToken
  | badTokenFormat
  | unknownToken
  | forbidden (agentId toolName : String)
deriving DecidableEq

/-- Result of a successful `Gatekeeper.authenticate`. -/
structure AuthResult where
  agentId : String
  proxyToken : String
deriving DecidableEq

/-- `Gatekeeper.authenticate` (src/security/gatekeeper.ts lines 6–39).
`getAgentByProxyToken` and `isAgentAuthorized` abstract the two vault
lookups; the result also carries the arguments map handed downstream. -/
def authenticate (getAgentByProxyToken : String → Option String)
    (isAgentAuthorized : String → String → Bool)
    (request : ToolCallRequest) (env : Option String) :
    Except AuthError AuthResult × Option JObj :=
  let er := extractProxyToken request env
  match er.token with
  | none => (.error .missingToken, er.argumentsAfter)
  | some v =>
    if ¬ v.truthy then (.error .missingToken, er.argumentsAfter)
    else if ¬ isValidProxyToken v.toJsString then
      (.error .badTokenFormat, er.argumentsAfter)
    else
      match getAgentByProxyToken v.toJsString with
      | none => (.error .unknownToken, er.argumentsAfter)
      | some agentId =>
        if ¬ isAgentAuthorized agentId request.name then
          (.error (.forbidden agentId request.name), er.argumentsAfter)
        else (.ok ⟨agentId, v.toJsString⟩, er.argumentsAfter)

/-! ## Audit logger (src/audit/logger.ts) -/

/-- An audit event as the orchestrator actually constructs it
(src/pincer.ts lines 52–57 and 66–72): agent id, tool, duration, status,
and an error summary on the error path only.  (The `AuditEvent` interface
in logger.ts additionally declares a required `timestamp: string` field,
but neither the orchestrator nor the logger ever sets one.) -/
structure AuditEvent where
  agentId : String
  tool : String
  duration : Nat
  status : String
  error : Option String
deriving DecidableEq

/-- A line of the audit file: the event's fields plus `chainHash` and
`prevHash` (logger.ts lines 30–34). -/
structure LogEntry where
  event : AuditEvent
  chainHash : String
  prevHash : String
deriving DecidableEq

/-- In-memory state of the `AuditLogger` plus the file contents it has
appended. -/
structure LoggerState where
  lastHash : String
  entries : List LogEntry
deriving DecidableEq

/-- The genesis hash (logger.ts line 8). -/
def genesisHash : String := "0000000000000000"

/-- `AuditLogger.computeChainHash` (logger.ts lines 42–46):
`sha256hex` abstracts Node `crypto`'s hex-encoded SHA-256 digest; the
source keeps the first 16 hex characters of the digest of
`lastHash + data`. -/
def computeChainHash (sha256hex : String → String)
    (lastHash data : String) : String :=
  (sha256hex (lastHash ++ data)).take 16

/-- `AuditLogger.log` (logger.ts lines 24–40): serialize the event
(`ser` abstracts `JSON.stringify`), chain-hash it against `lastHash`,
append the entry `{...event, chainHash, prevHash: lastHash}` and update
`lastHash`. -/
def AuditLogger.log (sha256hex : String → String)
    (ser : AuditEvent → String) (st : LoggerState) (event : AuditEvent) :
    LoggerState :=
  let eventJson := ser event
  let chainHash := computeChainHash sha256hex st.lastHash eventJson
  ⟨chainHash, st.entries ++ [⟨event, chainHash, st.lastHash⟩]⟩

/-- A fresh logger over an empty (absent) log file starts at the genesis
hash (logger.ts lines 8, 48–51). -/
def AuditLogger.initial : LoggerState := ⟨genesisHash, []⟩

/-- Run a sequence of `log` calls from the initial state. -/
def runLog (sha256hex : String → String) (ser : AuditEvent → String)
    (events : List AuditEvent) : LoggerState :=
  events.foldl (AuditLogger.log sha256hex ser) AuditLogger.initial

/-- The keys `JSON.stringify` emits for an orchestrator-built event, in
object-literal insertion order (src/pincer.ts lines 52–57 and 66–72):
`error` is present only on the error path; no timestamp key is ever set. -/
def eventJsonKeys (e : AuditEvent) : List String :=
  ["agentId", "tool", "duration", "status"] ++
    (match e.error with
     | some _ => ["error"]
     | none => [])

/-- The keys of one written audit line: the event's keys followed by
`chainHash` and `prevHash` (logger.ts lines 30–34). -/
def entryJsonKeys (ent : LogEntry) : List String :=
  eventJsonKeys ent.event ++ ["chainHash", "prevHash"]

/-- The entries produced by a run of `log` calls starting from hash `h`:
helper characterization used to prove the chain invariant. -/
def mkEntries (sha256hex : String → String) (ser : AuditEvent → String)
    (h : String) : List AuditEvent → List LogEntry
  | [] => []
  | e :: rest =>
    let ch := computeChainHash sha256hex h (ser e)
    ⟨e, ch, h⟩ :: mkEntries sha256hex ser ch rest

/-- The hash-chain invariant relative to a previous hash `prev`: each
entry's `prevHash` is the running hash and its `chainHash` is the chain
hash of its serialized event against that running hash. -/
def chainOk (sha256hex : String → String) (ser : AuditEvent → String)
    (prev : String) : List LogEntry → Prop
  | [] => True
  | ent :: rest =>
    ent.prevHash = prev ∧
    ent.chainHash = computeChainHash sha256hex prev (ser ent.event) ∧
    chainOk sha256hex ser ent.chainHash rest

/-! ## Vault store (src/vault/store.ts) -/

/-- Error kinds thrown by the vault store (the source throws `Error`s with
distinct messages; we record the kind). -/
inductive VaultError where
  | secretMissing
  | authFailure
  | notFound
  | conflict
deriving DecidableEq

/-- The output of `encrypt` / input of `decrypt` (store.ts `EncryptedData`):
hex ciphertext, hex nonce, hex auth tag. -/
structure EncryptedData where
  encryptedValue : String
  iv : String
  authTag : String
deriving DecidableEq

/-- A row of the `secrets` table (store.ts lines 30–39), keyed by
`UNIQUE(tool_name, key_label)`. -/
structure SecretRow where
  toolName : String
  keyLabel : String
  encryptedValue : String
  iv : String
  authTag : String
deriving DecidableEq

/-- The `WHERE tool_name = ? AND key_label = ?` condition. -/
def secretKeyMatches (toolName keyLabel : String) (r : SecretRow) : Bool :=
  r.toolName = toolName && r.keyLabel = keyLabel

/-- `VaultStore.setSecret` (store.ts lines 163–176): encrypt, then
`INSERT OR REPLACE` by `(tool_name, key_label)` — SQLite deletes any row
conflicting on the unique key and inserts the new row.  `encrypt` abstracts
AES-256-GCM under the master key (store.ts lines 129–144, Node `crypto`). -/
def setSecret (encrypt : String → EncryptedData) (rows : List SecretRow)
    (toolName secretValue : String) (keyLabel : String := "default") :
    List SecretRow :=
  let e := encrypt secretValue
  (rows.filter fun r => !(secretKeyMatches toolName keyLabel r)) ++
    [⟨toolName, keyLabel, e.encryptedValue, e.iv, e.authTag⟩]

/-- `VaultStore.getSecret` (store.ts lines 181–207): `SELECT` the row for
`(tool_name, key_label)`; absent row throws "Secret not found"
(*SecretMissing*); then decrypt — `decrypt` abstracts AES-256-GCM
decryption (store.ts lines 146–158), `none` standing for the GCM tag check
failing (*AuthFailure*). -/
def getSecret (decrypt : EncryptedData → Option String)
    (rows : List SecretRow) (toolName : String)
    (keyLabel : String := "default") : Except VaultError String :=
  match rows.find? (secretKeyMatches toolName keyLabel) with
  | none => .error .secretMissing
  | some r =>
    match decrypt ⟨r.encryptedValue, r.iv, r.authTag⟩ with
    | none => .error .authFailure
    | some plaintext => .ok plaintext

/-- A row of the `proxy_tokens` table: `(agent_id, proxy_token)`. -/
structure TokenRow where
  agentId : String
  proxyToken : String
deriving DecidableEq

/-- A row of the `agent_mappings` table: `(agent_id, tool_name, key_label)`,
keyed by `UNIQUE(agent_id, tool_name)`. -/
structure MappingRow where
  agentId : String
  toolName : String
  keyLabel : String
deriving DecidableEq

/-- The agent-related tables of the vault database. -/
structure AgentTables where
  proxyTokens : List TokenRow
  agentMappings : List MappingRow
deriving DecidableEq

/-- `VaultStore.removeAgent` (store.ts lines 371–387).  The source runs two
separate `DELETE` statements with no surrounding transaction, so each
autocommits: first all mappings of the agent are deleted, then the proxy
token row; only then, if the token delete reports `changes === 0`, an
"Agent not found" error (*NotFound*) is thrown — the mapping deletes are
not rolled back.  The returned state is the database state as it stands
when the call returns or throws. -/
def removeAgent (s : AgentTables) (agentId : String) :
    Except VaultError Unit × AgentTables :=
  -- DELETE FROM agent_mappings WHERE agent_id = ?
  let s₁ : AgentTables :=
    { s with agentMappings := s.agentMappings.filter fun m => !(m.agentId = agentId) }
  -- DELETE FROM proxy_tokens WHERE agent_id = ?  (result.changes counted)
  let changes := (s₁.proxyTokens.filter fun t => t.agentId = agentId).length
  let s₂ : AgentTables :=
    { s₁ with proxyTokens := s₁.proxyTokens.filter fun t => !(t.agentId = agentId) }
  if changes = 0 then (.error .notFound, s₂) else (.ok (), s₂)

/-- In-process master-key state of a `VaultStore`: the OS keychain record
(`keytar`, as an optional hex string) and the cached `masterKey` buffer. -/
structure MasterKeyState where
  keychain : Option String
  masterKeyCache : Option (List Nat)
deriving DecidableEq

/-- `keytar.deletePassword` (foreign): removes the record and reports
whether one existed. -/
def keytarDeletePassword (keychain : Option String) : Bool × Option String :=
  (keychain.isSome, none)

/-- `VaultStore.deleteMasterKey` (store.ts lines 117–124): calls
`keytar.deletePassword` and discards its boolean result, clears the cached
key, and returns `void` — the `Unit` in the result is everything the caller
ever sees. -/
def deleteMasterKey (s : MasterKeyState) : MasterKeyState × Unit :=
  let r := keytarDeletePassword s.keychain
  ({ keychain := r.2, masterKeyCache := none }, ())

/-- `VaultStore.addAgent`'s default token (store.ts line 237):
`` `pxr_${nanoid(21)}` ``.  `nano` stands for the string returned by the
foreign `nanoid(21)` call. -/
def defaultProxyToken (nano : String) : String := "pxr_" ++ nano

/-! ## Base caller (src/callers/base.ts) -/

/-- One `{type, text}` item of a tool response. -/
structure ContentItem where
  type : String
  text : String
deriving DecidableEq

/-- A `ToolResponse` (base.ts lines 61–66). -/
structure ToolResponse where
  content : List ContentItem
deriving DecidableEq

/-- JS `String.prototype.includes` on the character sequences. -/
def strIncludes (s pat : String) : Bool :=
  includesAux pat.data s.data
where
  includesAux (pat : List Char) : List Char → Bool
    | [] => pat.isEmpty
    | c :: rest => pat.isPrefixOf (c :: rest) || includesAux pat rest

/-- JS `String.prototype.toLowerCase` (characterwise, ASCII range). -/
def jsToLowerCase (s : String) : String :=
  ⟨s.data.map Char.toLower⟩

/-- `BaseCaller.isAuthError` (base.ts lines 35–43): the lowercased message
contains one of the four auth markers. -/
def isAuthError (message : String) : Bool :=
  let m := jsToLowerCase message
  strIncludes m "unauthorized" || strIncludes m "forbidden" ||
    strIncludes m "401" || strIncludes m "403"

/-- The compound error raised after the retry loop exhausts all attempts
(base.ts lines 26–28); `lastErr = none` renders `undefined` as JS template
interpolation of `lastError?.message` would. -/
def retryFailureMessage (maxRetries : Nat) (lastErr : Option String) : String :=
  "Failed after " ++ toString maxRetries ++ " retries: " ++
    (match lastErr with
     | some m => m
     | none => "undefined")

deriving instance DecidableEq for Except

/-- Observable trace of one `BaseCaller.execute` call: its outcome, how many
`executeInternal` attempts were made, and the sleeps performed (ms). -/
structure ExecTrace where
  outcome : Except String ToolResponse
  attemptsMade : Nat
  sleeps : List Nat
deriving DecidableEq

/-- The retry loop of `BaseCaller.execute` (base.ts lines 5–29).
`attempts n` is what the `n`-th `executeInternal` call would return.  The
source iterates `attempt` from `0` while `attempt < maxRetries`; here
`fuel = maxRetries - attempt` makes the recursion structural.  On success
return; on an auth error rethrow at once; otherwise sleep
`retryDelay · 2 ^ attempt` when another attempt remains
(`attempt < maxRetries - 1`) and continue; after the loop throw the
compound failure citing the last error. -/
def executeFuel (attempts : Nat → Except String ToolResponse)
    (maxRetries retryDelay : Nat) :
    Nat → Nat → Option String → Nat → List Nat → ExecTrace
  | 0, _, lastErr, made, sleeps =>
    ⟨.error (retryFailureMessage maxRetries lastErr), made, sleeps⟩
  | fuel + 1, attempt, _, made, sleeps =>
    match attempts attempt with
    | .ok r => ⟨.ok r, made + 1, sleeps⟩
    | .error e =>
      if isAuthError e then ⟨.error e, made + 1, sleeps⟩
      else
        executeFuel attempts maxRetries retryDelay fuel (attempt + 1)
          (some e) (made + 1)
          (if attempt < maxRetries - 1 then
            sleeps ++ [retryDelay * 2 ^ attempt]
           else sleeps)

/-- `BaseCaller.execute` with the class defaults `maxRetries = 3`,
`retryDelay = 1000` (base.ts lines 2–3). -/
def BaseCaller.execute (attempts : Nat → Except String ToolResponse)
    (maxRetries : Nat := 3) (retryDelay : Nat := 1000) : ExecTrace :=
  executeFuel attempts maxRetries retryDelay maxRetries 0 none 0 []

/-! ## Injector scrub and the orchestrator pipeline
(src/vault/injector.ts, src/pincer.ts) -/

/-- The `credentials` block of an enriched request (base.ts lines 55–58). -/
structure EnrichedCredentials where
  apiKey : Option String
  agentId : String
deriving DecidableEq

/-- An `EnrichedRequest`: the inbound params plus the credentials block
(injector.ts lines 100–107). -/
structure EnrichedRequest where
  name : String
  arguments : Option JObj
  credentials : EnrichedCredentials
deriving DecidableEq

/-- `VaultInjector.scrubMemory` (injector.ts lines 115–130): when an
`apiKey` is present it is overwritten with `"0".repeat(length)` and then
`delete`d, leaving the field absent; the request is dropped from the
tracking set (not modelled — the source's `WeakSet` is an aid to
reasoning only). -/
def scrubMemory (r : EnrichedRequest) : EnrichedRequest :=
  match r.credentials.apiKey with
  | some _ => { r with credentials := { r.credentials with apiKey := none } }
  | none => r

/-- The per-call collaborators of `Pincer.callTool`, each abstracted by the
outcome the source observes from it: `auth` is `gatekeeper.authenticate`
(`ok` carries the agent id), `validation` is `validator.validate`,
`callerLookup` is `registry.getCaller`, `injection` is
`injector.injectCredentials`, `execution` is `caller.execute` on the
enriched request.  Errors are their message strings. -/
structure CallEnv where
  auth : Except String String
  validation : Except String Unit
  callerLookup : Except String Unit
  injection : Except String EnrichedRequest
  execution : EnrichedRequest → Except String ToolResponse

/-- What one `Pincer.callTool` run did: the returned/raised outcome, whether
`injector.scrubMemory` was invoked on the enriched request, and the audit
events passed to `audit.log`. -/
structure CallOutcome where
  result : Except String ToolResponse
  scrubbed : Bool
  audit : List AuditEvent

/-- `Pincer.callTool` (src/pincer.ts lines 21–78).  The `try` block runs
authenticate → validate → getCaller → injectCredentials → execute →
scrubMemory → log success; the `catch` block logs an error entry (agent
`"unknown"` before authentication succeeds) and rethrows.  The `catch`
block contains no `scrubMemory` call and there is no `finally`, so a
failure of `caller.execute` leaves the enriched request unscrubbed.
`duration` abstracts `Date.now() - startTime`. -/
def Pincer.callTool (env : CallEnv) (toolName : String) (duration : Nat) :
    CallOutcome :=
  match env.auth with
  | .error e => ⟨.error e, false, [⟨"unknown", toolName, duration, "error", some e⟩]⟩
  | .ok agentId =>
    match env.validation with
    | .error e => ⟨.error e, false, [⟨agentId, toolName, duration, "error", some e⟩]⟩
    | .ok _ =>
      match env.callerLookup with
      | .error e => ⟨.error e, false, [⟨agentId, toolName, duration, "error", some e⟩]⟩
      | .ok _ =>
        match env.injection with
        | .error e => ⟨.error e, false, [⟨agentId, toolName, duration, "error", some e⟩]⟩
        | .ok enriched =>
          match env.execution enriched with
          | .error e =>
            ⟨.error e, false, [⟨agentId, toolName, duration, "error", some e⟩]⟩
          | .ok result =>
            ⟨.ok result, true, [⟨agentId, toolName, duration, "success", none⟩]⟩

/-! ## Analysis-side definitions

These do not embed source code; they phrase the spec-side patterns and the
case splits the claims speak about. -/

/-- The wire-format pattern as the spec states it: the literal `pxr_`
followed by 21 or more characters of `[A-Za-z0-9_-]`. -/
def specTokenPattern (t : String) : Prop :=
  ∃ rest : List Char, t.data = ['p', 'x', 'r', '_'] ++ rest ∧
    rest.length ≥ 21 ∧ ∀ c ∈ rest, isUrlSafeChar c = true

/-- Whether the `_meta` source would yield a string token. -/
def metaHasStringToken (meta : Option JObj) : Bool :=
  match meta with
  | some m =>
    match m.lookup "pincer_token" with
    | some (.str _) => true
    | _ => false
  | none => false

/-- Whether the arguments map carries the `__pincer_auth__` key. -/
def argsHasAuthKey (args : Option JObj) : Bool :=
  match args with
  | some a => (a.lookup "__pincer_auth__").isSome
  | none => false

/-- Whether the environment-variable source yields a token (set and
nonempty). -/
def envYields (env : Option String) : Bool :=
  match env with
  | some s => s ≠ ""
  | none => false

/-! ## Helper lemmas -/

theorem foldl_log_entries (sha256hex : String → String)
    (ser : AuditEvent → String) (events : List AuditEvent) :
    ∀ (h : String) (es : List LogEntry),
      (events.foldl (AuditLogger.log sha256hex ser) ⟨h, es⟩).entries =
        es ++ mkEntries sha256hex ser h events := by
  induction events with
  | nil => intro h es; simp [mkEntries]
  | cons e rest ih =>
    intro h es
    simp only [List.foldl_cons, mkEntries]
    rw [show AuditLogger.log sha256hex ser ⟨h, es⟩ e =
      ⟨computeChainHash sha256hex h (ser e),
        es ++ [⟨e, computeChainHash sha256hex h (ser e), h⟩]⟩ from rfl]
    rw [ih]
    simp

theorem chainOk_mkEntries (sha256hex : String → String)
    (ser : AuditEvent → String) (events : List AuditEvent) :
    ∀ h : String,
      chainOk sha256hex ser h (mkEntries sha256hex ser h events) := by
  induction events with
  | nil => intro h; simp [mkEntries, chainOk]
  | cons e rest ih =>
    intro h
    simp only [mkEntries, chainOk]
    exact ⟨trivial, trivial, ih _⟩

theorem chainOk_adjacent (sha256hex : String → String)
    (ser : AuditEvent → String) :
    ∀ (l : List LogEntry) (prev : String),
      chainOk sha256hex ser prev l →
      ∀ (i : Nat) (e₁ e₂ : LogEntry),
        l[i]? = some e₁ → l[i + 1]? = some e₂ →
        e₂.prevHash = e₁.chainHash := by
  intro l
  induction l with
  | nil => intro prev _ i e₁ e₂ h1 _; simp at h1
  | cons ent rest ih =>
    intro prev hok i e₁ e₂ h1 h2
    obtain ⟨hprev, hch, hrest⟩ := hok
    match i with
    | 0 =>
      rw [List.getElem?_cons_zero] at h1
      rw [List.getElem?_cons_succ] at h2
      injection h1 with h1
      subst h1
      cases rest with
      | nil => simp at h2
      | cons e₂' rest' =>
        rw [List.getElem?_cons_zero] at h2
        injection h2 with h2
        subst h2
        exact hrest.1
    | i + 1 =>
      rw [List.getElem?_cons_succ] at h1
      rw [List.getElem?_cons_succ] at h2
      exact ih ent.chainHash hrest i e₁ e₂ h1 h2

theorem chainOk_hash_formula (sha256hex : String → String)
    (ser : AuditEvent → String) :
    ∀ (l : List LogEntry) (prev : String),
      chainOk sha256hex ser prev l →
      ∀ (i : Nat) (e : LogEntry),
        l[i]? = some e →
        e.chainHash = (sha256hex (e.prevHash ++ ser e.event)).take 16 := by
  intro l
  induction l with
  | nil => intro prev _ i e h1; simp at h1
  | cons ent rest ih =>
    intro prev hok i e h1
    obtain ⟨hprev, hch, hrest⟩ := hok
    match i with
    | 0 =>
      rw [List.getElem?_cons_zero] at h1
      injection h1 with h1
      subst h1
      rw [hch, hprev, computeChainHash]
    | i + 1 =>
      rw [List.getElem?_cons_succ] at h1
      exact ih ent.chainHash hrest i e h1

theorem chainOk_head (sha256hex : String → String)
    (ser : AuditEvent → String) (l : List LogEntry) (prev : String)
    (hok : chainOk sha256hex ser prev l) (e : LogEntry)
    (h : l.head? = some e) : e.prevHash = prev := by
  match l, h with
  | ent :: rest, h =>
    simp [List.head?] at h
    subst h
    exact hok.1

theorem runLog_entries_eq (sha256hex : String → String)
    (ser : AuditEvent → String) (events : List AuditEvent) :
    (runLog sha256hex ser events).entries =
      mkEntries sha256hex ser genesisHash events := by
  have h := foldl_log_entries sha256hex ser events genesisHash []
  simpa [runLog, AuditLogger.initial] using h

/-! ## Claim theorems -/

/-- **C1** (code bug in the source): the claim says `Pincer.callTool` invokes
`scrubMemory` on the enriched request on the success path and on every
error path, including a failure thrown by `caller.execute`.  The source's
`catch` block has no `scrubMemory` call and there is no `finally`, so with
every pipeline stage succeeding up to injection and `caller.execute`
throwing, the enriched request is never scrubbed, while the success path
does scrub.  This theorem evaluates the embedded pipeline at such a
failing input. -/
theorem callTool_scrub_skipped_on_execute_error :
    (Pincer.callTool
      ⟨.ok "bot", .ok (), .ok (),
        .ok ⟨"gemini_generate", some [], ⟨some "AIza_REAL", "bot"⟩⟩,
        fun _ => .error "upstream 500"⟩ "gemini_generate" 5).scrubbed = false ∧
    (Pincer.callTool
      ⟨.ok "bot", .ok (), .ok (),
        .ok ⟨"gemini_generate", some [], ⟨some "AIza_REAL", "bot"⟩⟩,
        fun _ => .error "upstream 500"⟩ "gemini_generate" 5).result =
      .error "upstream 500" ∧
    (Pincer.callTool
      ⟨.ok "bot", .ok (), .ok (),
        .ok ⟨"gemini_generate", some [], ⟨some "AIza_REAL", "bot"⟩⟩,
        fun _ => .ok ⟨[]⟩⟩ "gemini_generate" 5).scrubbed = true :=
  ⟨rfl, rfl, rfl⟩

/-- **C9** (code bug in the source): the claim says `deleteMasterKey`
succeeds whether or not a master key is present (it does) *and* reports to
its caller whether a keychain record existed.  The source discards
`keytar.deletePassword`'s boolean and returns `void`: the caller-visible
output on a populated keychain is identical to that on an empty one, even
though the discarded `keytar` result did distinguish them. -/
theorem deleteMasterKey_reports_no_signal :
    (deleteMasterKey ⟨some "00ff", some [1, 2, 3]⟩).2 =
      (deleteMasterKey ⟨none, none⟩).2 ∧
    (deleteMasterKey ⟨some "00ff", some [1, 2, 3]⟩).1 = ⟨none, none⟩ ∧
    (deleteMasterKey ⟨none, none⟩).1 = ⟨none, none⟩ ∧
    (keytarDeletePassword (some "00ff")).1 = true ∧
    (keytarDeletePassword none).1 = false :=
  ⟨rfl, rfl, rfl, rfl, rfl⟩

/-- **C7** counterexample: the claim says `removeAgent` runs inside a
transaction, so that when it fails with *NotFound* no mapping row is
deleted.  On a store holding a mapping for `"ghost"` but no token record
(reachable, since `setAgentMapping` never checks that the agent exists),
`removeAgent "ghost"` throws *NotFound* and the mapping row is gone. -/
theorem removeAgent_notFound_mutates_state :
    (removeAgent ⟨[], [⟨"ghost", "gemini_generate", "default"⟩]⟩ "ghost").1 =
      .error .notFound ∧
    (removeAgent ⟨[], [⟨"ghost", "gemini_generate", "default"⟩]⟩ "ghost").2 ≠
      ⟨[], [⟨"ghost", "gemini_generate", "default"⟩]⟩ ∧
    (removeAgent ⟨[], [⟨"ghost", "gemini_generate", "default"⟩]⟩
        "ghost").2.agentMappings = [] := by
  refine ⟨rfl, ?_, rfl⟩
  decide

/-- **C7** (amended): `removeAgent` deletes all of the agent's mappings and
then its token record, and fails with *NotFound* exactly when the token
record was absent; the two `DELETE`s are not transactional — the resulting
state always has the agent's mappings and token removed, also on the
*NotFound* failure. -/
theorem removeAgent_behavior (s : AgentTables) (agentId : String) :
    (removeAgent s agentId).2.agentMappings =
      s.agentMappings.filter (fun m => !(m.agentId = agentId)) ∧
    (removeAgent s agentId).2.proxyTokens =
      s.proxyTokens.filter (fun t => !(t.agentId = agentId)) ∧
    ((removeAgent s agentId).1 = .error .notFound ↔
      s.proxyTokens.filter (fun t => t.agentId = agentId) = []) ∧
    ((removeAgent s agentId).1 = .ok () ↔
      s.proxyTokens.filter (fun t => t.agentId = agentId) ≠ []) := by
  refine ⟨?_, ?_, ?_, ?_⟩
  · simp only [removeAgent]
    split <;> rfl
  · simp only [removeAgent]
    split <;> rfl
  · by_cases h : (s.proxyTokens.filter fun t => decide (t.agentId = agentId)) = []
    · simp [removeAgent, h]
    · simp [removeAgent, h, List.length_eq_zero]
  · by_cases h : (s.proxyTokens.filter fun t => decide (t.agentId = agentId)) = []
    · simp [removeAgent, h]
    · simp [removeAgent, h, List.length_eq_zero]

/-- **C5** (code bug in the source): the claim says every audit line carries
`timestamp_utc` and `timestamp_local` stamped by the logger before hashing.
The logger stamps nothing and the orchestrator supplies no timestamp (the
repo's own `AuditEvent` interface requires a `timestamp` field and its
changelog promises dual timestamps, so the code contradicts its own
declarations): the keys of the written lines are exactly
`agentId, tool, duration, status[, error], chainHash, prevHash`, with no
timestamp field at all. -/
theorem auditLines_lack_timestamp_fields :
    ((runLog (fun s => s) (fun _ => "{}")
        [⟨"bot", "gemini_generate", 5, "success", none⟩,
         ⟨"unknown", "slack_send_message", 7, "error",
           some "Missing proxy token"⟩]).entries.map entryJsonKeys) =
      [["agentId", "tool", "duration", "status", "chainHash", "prevHash"],
       ["agentId", "tool", "duration", "status", "error", "chainHash",
         "prevHash"]] ∧
    (((runLog (fun s => s) (fun _ => "{}")
        [⟨"bot", "gemini_generate", 5, "success", none⟩,
         ⟨"unknown", "slack_send_message", 7, "error",
           some "Missing proxy token"⟩]).entries.map entryJsonKeys).all
      fun ks => decide ("timestamp_utc" ∉ ks) &&
        decide ("timestamp_local" ∉ ks)) = true := by
  constructor
  · rfl
  · decide

theorem isValidProxyToken_iff (t : String) :
    isValidProxyToken t = true ↔ specTokenPattern t := by
  unfold isValidProxyToken specTokenPattern
  constructor
  · intro h
    simp only [Bool.and_eq_true, decide_eq_true_eq, List.all_eq_true] at h
    obtain ⟨⟨htake, hlen⟩, hall⟩ := h
    refine ⟨t.data.drop 4, ?_, hlen, hall⟩
    conv_lhs => rw [← List.take_append_drop 4 t.data]
    rw [htake]
  · rintro ⟨rest, heq, hlen, hall⟩
    simp only [Bool.and_eq_true, decide_eq_true_eq, List.all_eq_true]
    rw [heq]
    have h4 : List.drop 4 (['p', 'x', 'r', '_'] ++ rest) = rest :=
      List.drop_left' rfl
    refine ⟨⟨List.take_left' rfl, ?_⟩, ?_⟩
    · rw [h4]
      exact hlen
    · intro c hc
      rw [h4] at hc
      exact hall c hc

/-- **C8**: the format check accepts a token exactly when it is `pxr_`
followed by at least 21 characters of `[A-Za-z0-9_-]`; a token with exactly
21 such characters after the prefix is accepted, one with 20 is rejected,
one containing `+` is rejected; and a default-generated token
`pxr_` + `nanoid(21)` — by the nanoid contract, 21 characters over the
URL-safe alphabet — is accepted by the check. -/
theorem proxyToken_format_check (nano : String) (hlen : nano.length = 21)
    (hchars : ∀ c ∈ nano.data, isUrlSafeChar c = true) :
    (∀ t : String, isValidProxyToken t = true ↔ specTokenPattern t) ∧
    isValidProxyToken "pxr_abcdefghijklmnopqrstu" = true ∧
    isValidProxyToken "pxr_abcdefghijklmnopqrst" = false ∧
    isValidProxyToken "pxr_abcdefghij+klmnopqrstuv" = false ∧
    isValidProxyToken (defaultProxyToken nano) = true := by
  refine ⟨isValidProxyToken_iff, by decide, by decide, by decide, ?_⟩
  rw [isValidProxyToken_iff]
  refine ⟨nano.data, ?_, ?_, hchars⟩
  · show ("pxr_" ++ nano).data = _
    rw [String.data_append "pxr_" nano]
  · show 21 ≤ nano.data.length
    have hd : nano.length = nano.data.length := rfl
    omega

/-- **C8** witness: the format-check theorem applied to the concrete
21-character nanoid output `abcdefghijklmnopqrstu`. -/
theorem proxyToken_format_check_witness :
    ("abcdefghijklmnopqrstu" : String).length = 21 ∧
    isValidProxyToken (defaultProxyToken "abcdefghijklmnopqrstu") = true :=
  ⟨by decide,
    (proxyToken_format_check "abcdefghijklmnopqrstu" (by decide)
      (by decide)).2.2.2.2⟩

/-- **C10**: when `_meta.pincer_token` holds a string, `extractProxyToken`
uses it and leaves the arguments map untouched — the `__pincer_auth__`
entry, if any, stays in the arguments handed downstream. -/
theorem extract_meta_source_leaves_arguments (m args : JObj) (t : String)
    (env : Option String) (name : String)
    (hmeta : m.lookup "pincer_token" = some (.str t)) :
    extractProxyToken ⟨name, some args, some m⟩ env =
      ⟨some (.str t), some args⟩ := by
  unfold extractProxyToken
  simp [hmeta]

/-- **C10** witness: a request carrying both a string `_meta.pincer_token`
and a `__pincer_auth__` argument keeps the argument entry in place. -/
theorem extract_meta_source_leaves_arguments_witness :
    JObj.lookup [("pincer_token", JVal.str "pxr_AAAAAAAAAAAAAAAAAAAAA")]
        "pincer_token" = some (JVal.str "pxr_AAAAAAAAAAAAAAAAAAAAA") ∧
    extractProxyToken
        ⟨"gemini_generate",
          some [("__pincer_auth__", JVal.str "leak"), ("q", JVal.str "hi")],
          some [("pincer_token", JVal.str "pxr_AAAAAAAAAAAAAAAAAAAAA")]⟩
        none =
      ⟨some (JVal.str "pxr_AAAAAAAAAAAAAAAAAAAAA"),
        some [("__pincer_auth__", JVal.str "leak"), ("q", JVal.str "hi")]⟩ :=
  ⟨by decide,
    extract_meta_source_leaves_arguments _ _ _ _ _ (by decide)⟩

/-- **C3** counterexample: with no `_meta`, a non-string `__pincer_auth__`
argument and the environment variable set to a well-formed token, the
environment variable is the only source yielding a string; the claim says
the token is taken from it, but the code takes the non-string arguments
value (no `typeof` check on that source) and authentication then fails
with *BadTokenFormat* without consulting the environment. -/
theorem extractToken_nonstring_argument_counterexample :
    (extractProxyToken
      ⟨"gemini_generate", some [("__pincer_auth__", JVal.num 42)], none⟩
      (some "pxr_AAAAAAAAAAAAAAAAAAAAA")).token = some (JVal.num 42) ∧
    (extractProxyToken
      ⟨"gemini_generate", some [("__pincer_auth__", JVal.num 42)], none⟩
      (some "pxr_AAAAAAAAAAAAAAAAAAAAA")).token ≠
        some (JVal.str "pxr_AAAAAAAAAAAAAAAAAAAAA") ∧
    (authenticate
      (fun tok => if tok = "pxr_AAAAAAAAAAAAAAAAAAAAA" then some "bot" else none)
      (fun _ _ => true)
      ⟨"gemini_generate", some [("__pincer_auth__", JVal.num 42)], none⟩
      (some "pxr_AAAAAAAAAAAAAAAAAAAAA")).1 = .error .badTokenFormat := by
  refine ⟨by decide, by decide, by decide⟩

theorem extract_eq_fallback (req : ToolCallRequest) (env : Option String)
    (h : metaHasStringToken req.meta = false) :
    extractProxyToken req env = extractProxyToken.extractFallback req env := by
  obtain ⟨nm, args, meta⟩ := req
  cases meta with
  | none => rfl
  | some m =>
    cases hl : JObj.lookup m "pincer_token" with
    | none => simp [extractProxyToken, hl]
    | some v =>
      cases v with
      | str s =>
        simp only [metaHasStringToken] at h
        rw [hl] at h
        simp at h
      | num n => simp [extractProxyToken, hl]
      | bool b => simp [extractProxyToken, hl]
      | null => simp [extractProxyToken, hl]

theorem fallback_eq_env (req : ToolCallRequest) (env : Option String)
    (h : argsHasAuthKey req.arguments = false) :
    extractProxyToken.extractFallback req env =
      extractProxyToken.extractEnv req env := by
  obtain ⟨nm, args, meta⟩ := req
  cases args with
  | none => rfl
  | some a =>
    cases hl : JObj.lookup a "__pincer_auth__" with
    | none => simp [extractProxyToken.extractFallback, hl]
    | some v =>
      simp only [argsHasAuthKey] at h
      rw [hl] at h
      simp at h

theorem extractEnv_no_yield (req : ToolCallRequest) (env : Option String)
    (h : envYields env = false) :
    extractProxyToken.extractEnv req env = ⟨none, req.arguments⟩ := by
  cases env with
  | none => rfl
  | some s =>
    simp only [envYields, decide_eq_false_iff_not, not_not] at h
    subst h
    rfl

/-- **C3** (amended): `authenticate` takes the proxy token from the first
of three sources that yields a value — `_meta.pincer_token` counts only
when its value is a string; `arguments.__pincer_auth__` counts whenever the
key is present, whatever the value's type (the source casts it without a
`typeof` check); the `PINCER_PROXY_TOKEN` environment variable counts when
set and nonempty.  When the token is taken from the arguments source the
`__pincer_auth__` key is removed from the arguments map handed downstream;
when no source yields a token, authentication fails with *MissingToken*. -/
theorem extractProxyToken_priority (name : String) (env : Option String) :
    (∀ (m : JObj) (t : String) (args : Option JObj),
      JObj.lookup m "pincer_token" = some (.str t) →
      extractProxyToken ⟨name, args, some m⟩ env = ⟨some (.str t), args⟩) ∧
    (∀ (meta : Option JObj) (args : JObj) (v : JVal),
      metaHasStringToken meta = false →
      JObj.lookup args "__pincer_auth__" = some v →
      extractProxyToken ⟨name, some args, meta⟩ env =
        ⟨some v, some (JObj.erase args "__pincer_auth__")⟩) ∧
    (∀ (meta : Option JObj) (args : Option JObj) (s : String),
      metaHasStringToken meta = false → argsHasAuthKey args = false →
      env = some s → s ≠ "" →
      extractProxyToken ⟨name, args, meta⟩ env = ⟨some (.str s), args⟩) ∧
    (∀ (meta : Option JObj) (args : Option JObj)
      (getAgent : String → Option String) (isAuth : String → String → Bool),
      metaHasStringToken meta = false → argsHasAuthKey args = false →
      envYields env = false →
      (authenticate getAgent isAuth ⟨name, args, meta⟩ env).1 =
        .error .missingToken) := by
  refine ⟨?_, ?_, ?_, ?_⟩
  · intro m t args hmeta
    unfold extractProxyToken
    simp [hmeta]
  · intro meta args v hmeta hlook
    rw [extract_eq_fallback ⟨name, some args, meta⟩ env hmeta]
    unfold extractProxyToken.extractFallback
    simp [hlook]
  · intro meta args s hmeta hargs henv hs
    rw [extract_eq_fallback ⟨name, args, meta⟩ env hmeta,
      fallback_eq_env ⟨name, args, meta⟩ env hargs]
    subst henv
    simp [extractProxyToken.extractEnv, hs]
  · intro meta args getAgent isAuth hmeta hargs henv
    have hx : extractProxyToken ⟨name, args, meta⟩ env = ⟨none, args⟩ := by
      rw [extract_eq_fallback ⟨name, args, meta⟩ env hmeta,
        fallback_eq_env ⟨name, args, meta⟩ env hargs,
        extractEnv_no_yield ⟨name, args, meta⟩ env henv]
    simp [authenticate, hx]

/-- **C3** witness: the arguments source wins when `_meta` yields no string
token, and the `__pincer_auth__` key is removed from the downstream
arguments map. -/
theorem extractProxyToken_priority_witness :
    metaHasStringToken (some [("pincer_token", JVal.num 7)]) = false ∧
    JObj.lookup [("__pincer_auth__", JVal.str "tok"), ("x", JVal.null)]
        "__pincer_auth__" = some (JVal.str "tok") ∧
    extractProxyToken
        ⟨"gemini_generate",
          some [("__pincer_auth__", JVal.str "tok"), ("x", JVal.null)],
          some [("pincer_token", JVal.num 7)]⟩ none =
      ⟨some (JVal.str "tok"), some [("x", JVal.null)]⟩ :=
  ⟨by decide, by decide,
    (extractProxyToken_priority "gemini_generate" none).2.1
      (some [("pincer_token", JVal.num 7)])
      [("__pincer_auth__", JVal.str "tok"), ("x", JVal.null)]
      (JVal.str "tok") (by decide) (by decide)⟩

/-- **C2**: for every sequence of `log` calls from an empty log, each
entry's `prevHash` equals the previous entry's `chainHash`, the first
entry's `prevHash` is the genesis value `"0000000000000000"`, and each
entry's `chainHash` is the first 16 hex characters of the SHA-256 digest
(`sha256hex` abstracting the Node `crypto` digest) of the previous hash
concatenated with the serialized base event. -/
theorem auditLog_hash_chain (sha256hex : String → String)
    (ser : AuditEvent → String) (events : List AuditEvent) :
    (∀ e : LogEntry, (runLog sha256hex ser events).entries.head? = some e →
      e.prevHash = genesisHash) ∧
    (∀ (i : Nat) (e₁ e₂ : LogEntry),
      (runLog sha256hex ser events).entries[i]? = some e₁ →
      (runLog sha256hex ser events).entries[i + 1]? = some e₂ →
      e₂.prevHash = e₁.chainHash) ∧
    (∀ (i : Nat) (e : LogEntry),
      (runLog sha256hex ser events).entries[i]? = some e →
      e.chainHash = (sha256hex (e.prevHash ++ ser e.event)).take 16) := by
  have hent := runLog_entries_eq sha256hex ser events
  have hok := chainOk_mkEntries sha256hex ser events genesisHash
  rw [← hent] at hok
  exact ⟨fun e he => chainOk_head sha256hex ser _ _ hok e he,
    fun i e₁ e₂ h1 h2 => chainOk_adjacent sha256hex ser _ _ hok i e₁ e₂ h1 h2,
    fun i e h1 => chainOk_hash_formula sha256hex ser _ _ hok i e h1⟩

/-- **C2** witness: a concrete two-event run; the second entry's `prevHash`
equals the first entry's `chainHash`. -/
theorem auditLog_hash_chain_witness :
    (runLog (fun _ => "abcdef0123456789XY") (fun e => e.agentId)
        [⟨"bot", "gemini_generate", 5, "success", none⟩,
         ⟨"bot", "slack_send_message", 6, "error", some "Forbidden"⟩]).entries[0]? =
      some ⟨⟨"bot", "gemini_generate", 5, "success", none⟩,
        "abcdef0123456789", "0000000000000000"⟩ ∧
    (runLog (fun _ => "abcdef0123456789XY") (fun e => e.agentId)
        [⟨"bot", "gemini_generate", 5, "success", none⟩,
         ⟨"bot", "slack_send_message", 6, "error", some "Forbidden"⟩]).entries[1]? =
      some ⟨⟨"bot", "slack_send_message", 6, "error", some "Forbidden"⟩,
        "abcdef0123456789", "abcdef0123456789"⟩ ∧
    (⟨⟨"bot", "slack_send_message", 6, "error", some "Forbidden"⟩,
        "abcdef0123456789", "abcdef0123456789"⟩ : LogEntry).prevHash =
      (⟨⟨"bot", "gemini_generate", 5, "success", none⟩,
        "abcdef0123456789", "0000000000000000"⟩ : LogEntry).chainHash :=
  ⟨by decide, by decide,
    (auditLog_hash_chain (fun _ => "abcdef0123456789XY") (fun e => e.agentId)
        [⟨"bot", "gemini_generate", 5, "success", none⟩,
         ⟨"bot", "slack_send_message", 6, "error", some "Forbidden"⟩]).2.1 0 _ _
      (by decide) (by decide)⟩

theorem find?_filter_neg {α : Type} (l : List α) (p : α → Bool) :
    (l.filter fun r => !(p r)).find? p = none := by
  rw [List.find?_eq_none]
  intro a ha
  rcases List.mem_filter.mp ha with ⟨-, h⟩
  simp only [Bool.not_eq_true'] at h
  simp [h]

theorem filter_filter_neg {α : Type} (l : List α) (p : α → Bool) :
    ((l.filter fun r => !(p r)).filter p) = [] := by
  rw [List.filter_eq_nil_iff]
  intro a ha
  rcases List.mem_filter.mp ha with ⟨-, h⟩
  simp only [Bool.not_eq_true'] at h
  simp [h]

/-- **C4**: after `setSecret(tool, value, label)`, `getSecret(tool, label)`
returns `value` (given the AES-GCM round-trip contract for that value);
the `INSERT OR REPLACE` means exactly one row survives for that
`(tool, label)` — the newest one — so no older value survives a re-write;
and `getSecret` on a `(tool, label)` with no stored row fails with
*SecretMissing*. -/
theorem setSecret_getSecret (encrypt : String → EncryptedData)
    (decrypt : EncryptedData → Option String) (rows : List SecretRow)
    (toolName secretValue keyLabel : String)
    (hroundtrip : decrypt (encrypt secretValue) = some secretValue) :
    getSecret decrypt (setSecret encrypt rows toolName secretValue keyLabel)
      toolName keyLabel = .ok secretValue ∧
    (setSecret encrypt rows toolName secretValue keyLabel).filter
        (secretKeyMatches toolName keyLabel) =
      [⟨toolName, keyLabel, (encrypt secretValue).encryptedValue,
        (encrypt secretValue).iv, (encrypt secretValue).authTag⟩] ∧
    (∀ rows' : List SecretRow,
      rows'.find? (secretKeyMatches toolName keyLabel) = none →
      getSecret decrypt rows' toolName keyLabel = .error .secretMissing) := by
  have hmatch : secretKeyMatches toolName keyLabel
      ⟨toolName, keyLabel, (encrypt secretValue).encryptedValue,
        (encrypt secretValue).iv, (encrypt secretValue).authTag⟩ = true := by
    simp [secretKeyMatches]
  refine ⟨?_, ?_, ?_⟩
  · unfold getSecret setSecret
    rw [List.find?_append, find?_filter_neg]
    simp [List.find?_cons_of_pos _ hmatch, hroundtrip]
  · unfold setSecret
    rw [List.filter_append, filter_filter_neg]
    simp [hmatch]
  · intro rows' hnone
    simp [getSecret, hnone]

/-- **C4** witness: a concrete cipher satisfying the round-trip contract,
an empty table, and one written secret read back. -/
theorem setSecret_getSecret_witness :
    (fun e : EncryptedData => some e.encryptedValue)
        ((fun v : String => (⟨v, "9a", "ff"⟩ : EncryptedData)) "AIza_REAL") =
      some "AIza_REAL" ∧
    getSecret (fun e => some e.encryptedValue)
      (setSecret (fun v => ⟨v, "9a", "ff"⟩) [] "gemini_api_key" "AIza_REAL"
        "default") "gemini_api_key" "default" = .ok "AIza_REAL" :=
  ⟨rfl,
    (setSecret_getSecret (fun v => ⟨v, "9a", "ff"⟩)
      (fun e => some e.encryptedValue) [] "gemini_api_key" "AIza_REAL"
      "default" rfl).1⟩

theorem executeFuel_zero (attempts : Nat → Except String ToolResponse)
    (maxRetries retryDelay attempt : Nat) (lastErr : Option String)
    (made : Nat) (sleeps : List Nat) :
    executeFuel attempts maxRetries retryDelay 0 attempt lastErr made sleeps =
      ⟨.error (retryFailureMessage maxRetries lastErr), made, sleeps⟩ := rfl

theorem executeFuel_succ (attempts : Nat → Except String ToolResponse)
    (maxRetries retryDelay fuel attempt : Nat) (lastErr : Option String)
    (made : Nat) (sleeps : List Nat) :
    executeFuel attempts maxRetries retryDelay (fuel + 1) attempt lastErr
        made sleeps =
      match attempts attempt with
      | .ok r => ⟨.ok r, made + 1, sleeps⟩
      | .error e =>
        if isAuthError e then ⟨.error e, made + 1, sleeps⟩
        else
          executeFuel attempts maxRetries retryDelay fuel (attempt + 1)
            (some e) (made + 1)
            (if attempt < maxRetries - 1 then
              sleeps ++ [retryDelay * 2 ^ attempt]
             else sleeps) := rfl

theorem executeFuel_attempts_le (attempts : Nat → Except String ToolResponse)
    (maxRetries retryDelay : Nat) :
    ∀ (fuel attempt : Nat) (lastErr : Option String) (made : Nat)
      (sleeps : List Nat),
      (executeFuel attempts maxRetries retryDelay fuel attempt lastErr made
        sleeps).attemptsMade ≤ made + fuel := by
  intro fuel
  induction fuel with
  | zero =>
    intro attempt lastErr made sleeps
    simp [executeFuel_zero]
  | succ n ih =>
    intro attempt lastErr made sleeps
    rw [executeFuel_succ]
    cases hatt : attempts attempt with
    | ok r => simp
    | error e =>
      by_cases h : isAuthError e = true
      · simp [h]
      · simp only [h, if_false, Bool.false_eq_true]
        have := ih (attempt + 1) (some e) (made + 1)
          (if attempt < maxRetries - 1 then
            sleeps ++ [retryDelay * 2 ^ attempt]
           else sleeps)
        calc _ ≤ made + 1 + n := this
        _ ≤ made + (n + 1) := by omega

/-- **C6**: an auth-classified error (`unauthorized` / `forbidden` / `401`
/ `403`, case-insensitive) on the first attempt is rethrown after exactly
one attempt with no backoff sleep; otherwise up to `maxRetries = 3`
attempts are made, sleeping `retryDelay · 2 ^ attempt` ms between
consecutive attempts (1000 then 2000 by default), with a compound error
summarizing the final attempt's message after all fail. -/
theorem baseCaller_retry_policy (attempts : Nat → Except String ToolResponse) :
    (∀ e, attempts 0 = .error e → isAuthError e = true →
      BaseCaller.execute attempts = ⟨.error e, 1, []⟩) ∧
    (∀ e₀ r, attempts 0 = .error e₀ → isAuthError e₀ = false →
      attempts 1 = .ok r →
      BaseCaller.execute attempts = ⟨.ok r, 2, [1000]⟩) ∧
    (∀ e₀ e₁ e₂,
      attempts 0 = .error e₀ → isAuthError e₀ = false →
      attempts 1 = .error e₁ → isAuthError e₁ = false →
      attempts 2 = .error e₂ → isAuthError e₂ = false →
      BaseCaller.execute attempts =
        ⟨.error ("Failed after 3 retries: " ++ e₂), 3, [1000, 2000]⟩) ∧
    (BaseCaller.execute attempts).attemptsMade ≤ 3 := by
  refine ⟨?_, ?_, ?_, ?_⟩
  · intro e h0 ha
    unfold BaseCaller.execute
    rw [executeFuel_succ, h0]
    simp [ha]
  · intro e₀ r h0 ha0 h1
    unfold BaseCaller.execute
    rw [executeFuel_succ, h0]
    simp only [ha0, Bool.false_eq_true, if_false]
    norm_num
    rw [executeFuel_succ, h1]
  · intro e₀ e₁ e₂ h0 ha0 h1 ha1 h2 ha2
    unfold BaseCaller.execute
    rw [executeFuel_succ, h0]
    simp only [ha0, Bool.false_eq_true, if_false]
    norm_num
    rw [executeFuel_succ, h1]
    simp only [ha1, Bool.false_eq_true, if_false]
    norm_num
    rw [executeFuel_succ, h2]
    simp only [ha2, Bool.false_eq_true, if_false]
    norm_num
    rw [executeFuel_zero]
    simp [retryFailureMessage]
    rfl
  · exact executeFuel_attempts_le attempts 3 1000 3 0 none 0 []

/-- **C6** witness: a caller that always answers `401 Unauthorized` makes
exactly one attempt with no sleep; one that always answers `500 Internal
Server Error` makes three attempts, sleeps 1000 then 2000 ms, and raises
the compound failure. -/
theorem baseCaller_retry_policy_witness :
    isAuthError "401 Unauthorized" = true ∧
    BaseCaller.execute (fun _ => .error "401 Unauthorized") =
      ⟨.error "401 Unauthorized", 1, []⟩ ∧
    isAuthError "500 Internal Server Error" = false ∧
    BaseCaller.execute (fun _ => .error "500 Internal Server Error") =
      ⟨.error "Failed after 3 retries: 500 Internal Server Error", 3,
        [1000, 2000]⟩ :=
  ⟨by decide,
    (baseCaller_retry_policy (fun _ => .error "401 Unauthorized")).1
      "401 Unauthorized" rfl (by decide),
    by decide,
    (baseCaller_retry_policy
        (fun _ => .error "500 Internal Server Error")).2.2.1
      "500 Internal Server Error" "500 Internal Server Error"
      "500 Internal Server Error" rfl (by decide) rfl (by decide) rfl
      (by decide)⟩

end PincerMCP
